import Mathlib

/-
Verification of the MBES line-spacing calculator (src/app.py).

The source is a single script: two pure helper functions
(calculate_ping_rate, calculate_hits_per_cell), a three-way choice of the
angle sweep range, a loop building one result row per candidate opening
angle, and a selection of the first row (in descending-angle order) whose
hit-count requirement is met.  We embed the numeric computations over ℝ
(Python floats are modelled as exact reals) and the sweep as a List.
-/

namespace MBES

/-- Sound speed constant in m/s (SOUND_SPEED in the source). -/
def SOUND_SPEED : ℝ := 1500

/-- Knots-to-m/s conversion factor (KNOT_TO_MS in the source). -/
noncomputable def KNOT_TO_MS : ℝ := 0.514444

/-- calculate_ping_rate(depth_m) from the source:
1 / (2 * depth_m / SOUND_SPEED) if depth_m > 0 else 1. -/
noncomputable def calculate_ping_rate (depth_m : ℝ) : ℝ :=
  if depth_m > 0 then 1 / (2 * depth_m / SOUND_SPEED) else 1

/-- calculate_hits_per_cell from the source:
density_across = n_beams / swath_m if swath_m > 0 else 0;
density_along = ping_rate_hz / speed_ms if speed_ms > 0 else 0;
returns 0.325 * density_across * cell_size_m * density_along * cell_size_m. -/
noncomputable def calculate_hits_per_cell (swath_m ping_rate_hz : ℝ) (n_beams_int : ℕ)
    (speed_ms cell_size_m : ℝ) : ℝ :=
  let density_across : ℝ := if swath_m > 0 then (n_beams_int : ℝ) / swath_m else 0
  let density_along : ℝ := if speed_ms > 0 then ping_rate_hz / speed_ms else 0
  0.325 * density_across * cell_size_m * density_along * cell_size_m

/-- Python range(start, stop, -step) for a positive step magnitude:
the descending arithmetic progression start, start-step, ... of all values
strictly greater than stop. -/
def pyRangeDown (start stop : ℤ) (step : ℕ) : List ℤ :=
  (List.range ((start - stop + step - 1) / step).toNat).map
    (fun k => start - (step : ℤ) * (k : ℤ))

/-- The three-way angle-range selection from the source:
range(140, 4, -5) when depth < 7; range(100, 4, -5) when depth > 40 and
cell_size <= 0.25; range(120, 4, -5) otherwise. -/
noncomputable def angle_range (depth cell_size : ℝ) : List ℤ :=
  if depth < 7 then pyRangeDown 140 4 5
  else if depth > 40 ∧ cell_size ≤ 0.25 then pyRangeDown 100 4 5
  else pyRangeDown 120 4 5

/-- Round half to even on reals: the tie-breaking rule of Python's built-in
round. At non-ties it agrees with ordinary rounding to the nearest integer. -/
noncomputable def round_half_even (y : ℝ) : ℤ :=
  if y - ⌊y⌋ = 1 / 2 then (if Even ⌊y⌋ then ⌊y⌋ else ⌊y⌋ + 1) else round y

/-- Python round(x, ndigits) on reals: round x * 10^ndigits half-to-even to an
integer, then divide back. -/
noncomputable def pyRound (x : ℝ) (ndigits : ℕ) : ℝ :=
  (round_half_even (x * 10 ^ ndigits) : ℝ) / 10 ^ ndigits

/-- The configuration parameters read by the script: depth (m), grid cell
size (m), overlap (%), minimum hit count per cell, number of beams, and
vessel speed in m/s (speed_knots * KNOT_TO_MS in the source). -/
structure SurveyConfig where
  depth : ℝ
  cell_size : ℝ
  overlap : ℝ
  hit_count_min : ℕ
  n_beams : ℕ
  speed : ℝ

/-- One row of the results table: opening angle (deg), rounded line spacing
(m), rounded total coverage / swath (m), rounded hit count per cell, and the
meets-requirement flag (the source stores it as a checkmark / cross string;
we store the equivalent Boolean). -/
structure AngleResult where
  opening_angle : ℤ
  line_spacing : ℝ
  total_coverage : ℝ
  hit_count_per_cell : ℝ
  meets_requirement : Bool

/-- Per-angle swath width: swath = 2 * depth * tan(radians(angle) / 2). -/
noncomputable def swath_at (c : SurveyConfig) (angle : ℤ) : ℝ :=
  2 * c.depth * Real.tan ((angle : ℝ) * Real.pi / 180 / 2)

/-- Per-angle unrounded hit count:
hits = calculate_hits_per_cell(swath, ping_rate, n_beams, speed, cell_size). -/
noncomputable def hits_at (c : SurveyConfig) (angle : ℤ) : ℝ :=
  calculate_hits_per_cell (swath_at c angle) (calculate_ping_rate c.depth)
    c.n_beams c.speed c.cell_size

/-- Per-angle unrounded line spacing: swath * (1 - overlap / 100). -/
noncomputable def line_spacing_at (c : SurveyConfig) (angle : ℤ) : ℝ :=
  swath_at c angle * (1 - c.overlap / 100)

/-- Per-angle validity flag: hits >= hit_count_min, on the unrounded hits. -/
noncomputable def meets_at (c : SurveyConfig) (angle : ℤ) : Bool :=
  decide (hits_at c angle ≥ (c.hit_count_min : ℝ))

/-- The result row appended for one angle of the sweep, with the rounding the
source applies when building the row dictionary: line spacing and total
coverage to 2 decimals, hit count to 1 decimal; the flag from unrounded hits. -/
noncomputable def result_at (c : SurveyConfig) (angle : ℤ) : AngleResult :=
  ⟨angle, pyRound (line_spacing_at c angle) 2, pyRound (swath_at c angle) 2,
    pyRound (hits_at c angle) 1, meets_at c angle⟩

/-- The full results table: one row per angle of the sweep, in iteration
order (descending angle). -/
noncomputable def results (c : SurveyConfig) : List AngleResult :=
  (angle_range c.depth c.cell_size).map (result_at c)

/-- The filtered table of rows whose requirement is met (the source filters
the DataFrame on the checkmark column). -/
noncomputable def valid_angles (c : SurveyConfig) : List AngleResult :=
  (results c).filter (fun r => r.meets_requirement)

/-- The reported outcome: the opening angle and line spacing of the first
valid row (iloc[0]) when the filtered table is non-empty, and the explicit
no-valid-angle outcome (none) otherwise. -/
noncomputable def evaluate (c : SurveyConfig) : Option (ℤ × ℝ) :=
  (valid_angles c).head?.map (fun r => (r.opening_angle, r.line_spacing))

/-- The validity flag is true exactly when the unrounded hits reach the
threshold. -/
lemma meets_at_iff (c : SurveyConfig) (angle : ℤ) :
    meets_at c angle = true ↔ hits_at c angle ≥ (c.hit_count_min : ℝ) := by
  simp [meets_at]

/-- Claim C5: for every depth > 0 the estimated ping rate is 1500 / (2 * depth);
for every depth ≤ 0 (including 0) it is exactly 1. The function is total on ℝ,
so it never divides by zero or raises. -/
theorem C5_ping_rate (d : ℝ) :
    (0 < d → calculate_ping_rate d = 1500 / (2 * d)) ∧
    (d ≤ 0 → calculate_ping_rate d = 1) := by
  constructor
  · intro hd
    simp only [calculate_ping_rate]
    rw [if_pos hd, one_div_div]
    norm_num [SOUND_SPEED]
  · intro hd
    simp only [calculate_ping_rate]
    rw [if_neg (not_lt.mpr hd)]

/-- Claim C2: whenever swath width > 0 and vessel speed > 0, the hit-count model
returns exactly 0.325 * (beams / swath) * cellSize * (pingRate / speed) * cellSize. -/
theorem C2_hits_formula (swath_m ping_rate_hz : ℝ) (nb : ℕ) (speed_ms cell_size_m : ℝ)
    (hsw : 0 < swath_m) (hsp : 0 < speed_ms) :
    calculate_hits_per_cell swath_m ping_rate_hz nb speed_ms cell_size_m =
      0.325 * ((nb : ℝ) / swath_m) * cell_size_m * (ping_rate_hz / speed_ms) * cell_size_m := by
  simp only [calculate_hits_per_cell]
  rw [if_pos hsw, if_pos hsp]

/-- Witness for C2 at swath 2, ping rate 3, 512 beams, speed 4, cell size 5. -/
theorem C2_hits_formula_witness :
    calculate_hits_per_cell 2 3 512 4 5 =
      0.325 * (((512 : ℕ) : ℝ) / 2) * 5 * ((3 : ℝ) / 4) * 5 :=
  C2_hits_formula 2 3 512 4 5 (by norm_num) (by norm_num)

/-- Claim C7: when swath ≤ 0 or speed ≤ 0 the corresponding density term is 0,
the returned hit count is exactly 0, and the angle fails every threshold
m ≥ 1; the function is total, so no in-domain input raises. -/
theorem C7_degenerate_inputs (swath_m ping_rate_hz : ℝ) (nb : ℕ) (speed_ms cell_size_m : ℝ) :
    (swath_m ≤ 0 ∨ speed_ms ≤ 0 →
      calculate_hits_per_cell swath_m ping_rate_hz nb speed_ms cell_size_m = 0) ∧
    (∀ m : ℕ, 1 ≤ m → swath_m ≤ 0 ∨ speed_ms ≤ 0 →
      ¬ calculate_hits_per_cell swath_m ping_rate_hz nb speed_ms cell_size_m ≥ (m : ℝ)) := by
  have hzero : swath_m ≤ 0 ∨ speed_ms ≤ 0 →
      calculate_hits_per_cell swath_m ping_rate_hz nb speed_ms cell_size_m = 0 := by
    intro h
    simp only [calculate_hits_per_cell]
    rcases h with h | h
    · rw [if_neg (not_lt.mpr h)]
      ring
    · rw [if_neg (not_lt.mpr h)]
      ring
  refine ⟨hzero, ?_⟩
  intro m hm h
  rw [hzero h]
  have h1 : (1 : ℝ) ≤ (m : ℝ) := by exact_mod_cast hm
  intro habs
  linarith

/-- Claim C8: with swath > 0, speed > 0 and the remaining inputs non-negative,
the hit-count model is non-decreasing in beam count and in cell size, and
non-increasing in swath and in speed. -/
theorem C8_monotonicity (sw pr sp cs : ℝ) (nb : ℕ)
    (hsw : 0 < sw) (hsp : 0 < sp) (hpr : 0 ≤ pr) (hcs : 0 ≤ cs) :
    (∀ nb' : ℕ, nb ≤ nb' →
      calculate_hits_per_cell sw pr nb sp cs ≤ calculate_hits_per_cell sw pr nb' sp cs) ∧
    (∀ cs' : ℝ, cs ≤ cs' →
      calculate_hits_per_cell sw pr nb sp cs ≤ calculate_hits_per_cell sw pr nb sp cs') ∧
    (∀ sw' : ℝ, sw ≤ sw' →
      calculate_hits_per_cell sw' pr nb sp cs ≤ calculate_hits_per_cell sw pr nb sp cs) ∧
    (∀ sp' : ℝ, sp ≤ sp' →
      calculate_hits_per_cell sw pr nb sp' cs ≤ calculate_hits_per_cell sw pr nb sp cs) := by
  have hval : ∀ (s p : ℝ) (n : ℕ) (cz : ℝ), 0 < s → 0 < p →
      calculate_hits_per_cell s pr n p cz =
        0.325 * ((n : ℝ) / s) * cz * (pr / p) * cz := by
    intro s p n cz hs hp
    simp only [calculate_hits_per_cell]
    rw [if_pos hs, if_pos hp]
  refine ⟨?_, ?_, ?_, ?_⟩
  · intro nb' hnb
    rw [hval sw sp nb cs hsw hsp, hval sw sp nb' cs hsw hsp]
    have hcast : (nb : ℝ) ≤ (nb' : ℝ) := by exact_mod_cast hnb
    gcongr
  · intro cs' hcs'
    rw [hval sw sp nb cs hsw hsp, hval sw sp nb cs' hsw hsp]
    have hda : (0 : ℝ) ≤ (nb : ℝ) / sw := div_nonneg (Nat.cast_nonneg nb) hsw.le
    have hdl : (0 : ℝ) ≤ pr / sp := div_nonneg hpr hsp.le
    have hcs'0 : (0 : ℝ) ≤ cs' := le_trans hcs hcs'
    gcongr
  · intro sw' hsw'
    have hsw'pos : 0 < sw' := lt_of_lt_of_le hsw hsw'
    rw [hval sw sp nb cs hsw hsp, hval sw' sp nb cs hsw'pos hsp]
    gcongr
  · intro sp' hsp'
    have hsp'pos : 0 < sp' := lt_of_lt_of_le hsp hsp'
    rw [hval sw sp nb cs hsw hsp, hval sw sp' nb cs hsw hsp'pos]
    gcongr

/-- Witness for C8: at swath 2, ping rate 1, speed 1, cell size 1, raising the
beam count from 512 to 1024 does not decrease the hit count. -/
theorem C8_monotonicity_witness :
    calculate_hits_per_cell 2 1 512 1 1 ≤ calculate_hits_per_cell 2 1 1024 1 1 :=
  (C8_monotonicity 2 1 1 1 512 (by norm_num) (by norm_num) (by norm_num)
    (by norm_num)).1 1024 (by norm_num)

/-- At depth 20 and cell size 1 the default branch applies. -/
lemma angle_range_20_1 : angle_range 20 1 = pyRangeDown 120 4 5 := by
  unfold angle_range
  split_ifs with h1 h2
  · norm_num at h1
  · norm_num at h2
  · rfl

/-- Claim C3: the angle range is a pure function of depth and cell size with
exactly three branches (start 140 when depth < 7, start 100 when depth > 40
and cellSize ≤ 0.25, start 120 otherwise); in every branch the step is −5 and
the iteration order is strictly descending. -/
theorem C3_angle_range_branches (depth cell_size : ℝ) :
    (depth < 7 → angle_range depth cell_size = pyRangeDown 140 4 5) ∧
    (¬ depth < 7 → depth > 40 ∧ cell_size ≤ 0.25 →
      angle_range depth cell_size = pyRangeDown 100 4 5) ∧
    (¬ depth < 7 → ¬ (depth > 40 ∧ cell_size ≤ 0.25) →
      angle_range depth cell_size = pyRangeDown 120 4 5) ∧
    ((angle_range depth cell_size).head? = some 140 ∨
      (angle_range depth cell_size).head? = some 120 ∨
      (angle_range depth cell_size).head? = some 100) ∧
    (∀ p ∈ (angle_range depth cell_size).zip (angle_range depth cell_size).tail,
      p.2 = p.1 - 5) ∧
    (angle_range depth cell_size).Pairwise (· > ·) := by
  refine ⟨?_, ?_, ?_, ?_, ?_, ?_⟩ <;> unfold angle_range
  · intro h
    rw [if_pos h]
  · intro h1 h2
    rw [if_neg h1, if_pos h2]
  · intro h1 h2
    rw [if_neg h1, if_neg h2]
  · split_ifs <;> decide
  · split_ifs <;> decide
  · split_ifs <;> decide

/-- Counterexample to claim C4 as stated: at depth 20, cell size 1, the sweep
contains 5° and its last element is 5°, so the smallest included angle is not
10°. -/
theorem C4_counterexample :
    (5 : ℤ) ∈ angle_range 20 1 ∧ (angle_range 20 1).getLast? = some 5 ∧
      ¬ ∀ a ∈ angle_range 20 1, (10 : ℤ) ≤ a := by
  rw [angle_range_20_1]
  refine ⟨by decide, by decide, ?_⟩
  intro hall
  have h5 := hall 5 (by decide)
  norm_num at h5

/-- Claim C4 (amended): in every one of the three angle ranges the smallest
included opening angle is 5°, not 10°: the last element is 5 and every element
is at least 5 (the iteration continues while the angle exceeds 4). -/
theorem C4_amended_min_angle (depth cell_size : ℝ) :
    (angle_range depth cell_size).getLast? = some 5 ∧
      ∀ a ∈ angle_range depth cell_size, 5 ≤ a ∧ 4 < a := by
  unfold angle_range
  split_ifs <;> exact ⟨by decide, by decide⟩

/-- Claim C9: the results table is never empty, its length equals the length
of the sweep, and that length is 28, 24 or 20 according to the branch taken
(starts 140, 120, 100 respectively). -/
theorem C9_sweep_length (c : SurveyConfig) :
    results c ≠ [] ∧
    (results c).length = (angle_range c.depth c.cell_size).length ∧
    (c.depth < 7 → (results c).length = 28) ∧
    (¬ c.depth < 7 → c.depth > 40 ∧ c.cell_size ≤ 0.25 → (results c).length = 20) ∧
    (¬ c.depth < 7 → ¬ (c.depth > 40 ∧ c.cell_size ≤ 0.25) → (results c).length = 24) := by
  have hlen : (results c).length = (angle_range c.depth c.cell_size).length := by
    unfold results
    rw [List.length_map]
  refine ⟨?_, hlen, ?_, ?_, ?_⟩
  · unfold results
    rw [Ne, List.map_eq_nil_iff]
    unfold angle_range
    split_ifs <;> decide
  · intro h
    rw [hlen]
    unfold angle_range
    rw [if_pos h]
    decide
  · intro h1 h2
    rw [hlen]
    unfold angle_range
    rw [if_neg h1, if_pos h2]
    decide
  · intro h1 h2
    rw [hlen]
    unfold angle_range
    rw [if_neg h1, if_neg h2]
    decide

/-- The angle sweep is strictly descending for every input. -/
lemma angle_range_pairwise (depth cell_size : ℝ) :
    (angle_range depth cell_size).Pairwise (· > ·) := by
  unfold angle_range
  split_ifs <;> decide

/-- In a strictly descending list, the head of the filtered list satisfies the
predicate, belongs to the list, and is the greatest member satisfying it. -/
lemma head_filter_max {p : ℤ → Bool} :
    ∀ l : List ℤ, l.Pairwise (· > ·) → ∀ a : ℤ, (l.filter p).head? = some a →
      p a = true ∧ a ∈ l ∧ ∀ b ∈ l, p b = true → b ≤ a := by
  intro l
  induction l with
  | nil =>
    intro _ a h
    simp at h
  | cons x t ih =>
    intro hl a h
    rw [List.pairwise_cons] at hl
    by_cases hx : p x = true
    · rw [List.filter_cons_of_pos hx] at h
      simp only [List.head?_cons, Option.some.injEq] at h
      subst h
      refine ⟨hx, List.mem_cons_self x t, ?_⟩
      intro b hb hpb
      rcases List.mem_cons.mp hb with hbx | hbt
      · exact le_of_eq hbx
      · exact le_of_lt (hl.1 b hbt)
    · rw [List.filter_cons_of_neg hx] at h
      obtain ⟨hpa, hat, hmax⟩ := ih hl.2 a h
      refine ⟨hpa, List.mem_cons_of_mem x hat, ?_⟩
      intro b hb hpb
      rcases List.mem_cons.mp hb with hbx | hbt
      · subst hbx
        exact absurd hpb hx
      · exact hmax b hbt hpb

/-- The filtered table is the image of the filtered angle sweep. -/
lemma valid_angles_eq (c : SurveyConfig) :
    valid_angles c =
      ((angle_range c.depth c.cell_size).filter (fun a => meets_at c a)).map
        (result_at c) := by
  unfold valid_angles results
  rw [List.filter_map]
  rfl

/-- The evaluation reports the explicit no-valid-angle outcome exactly when no
angle of the sweep reaches the threshold on unrounded hits. -/
lemma evaluate_eq_none_iff (c : SurveyConfig) :
    evaluate c = none ↔
      ∀ a ∈ angle_range c.depth c.cell_size, ¬ hits_at c a ≥ (c.hit_count_min : ℝ) := by
  unfold evaluate
  rw [Option.map_eq_none', List.head?_eq_none_iff, valid_angles_eq,
    List.map_eq_nil_iff, List.filter_eq_nil_iff]
  constructor
  · intro h a ha hge
    exact h a ha ((meets_at_iff c a).mpr hge)
  · intro h a ha hma
    exact h a ha ((meets_at_iff c a).mp hma)

/-- Claim C1: a reported outcome is the first row, in the descending-angle
iteration order, whose requirement flag is true: its angle belongs to the
sweep, its unrounded hits reach the threshold, its spacing is the rounded
line spacing at that angle, and its angle is the maximum over all sweep
angles whose unrounded hits reach the threshold.  The outcome is the
explicit none exactly when no sweep angle reaches the threshold. -/
theorem C1_optimal_selection (c : SurveyConfig) :
    (∀ pr : ℤ × ℝ, evaluate c = some pr →
      pr.1 ∈ angle_range c.depth c.cell_size ∧
      hits_at c pr.1 ≥ (c.hit_count_min : ℝ) ∧
      pr.2 = pyRound (line_spacing_at c pr.1) 2 ∧
      ∀ a ∈ angle_range c.depth c.cell_size,
        hits_at c a ≥ (c.hit_count_min : ℝ) → a ≤ pr.1) ∧
    (evaluate c = none ↔
      ∀ a ∈ angle_range c.depth c.cell_size, ¬ hits_at c a ≥ (c.hit_count_min : ℝ)) := by
  refine ⟨?_, evaluate_eq_none_iff c⟩
  rintro ⟨a0, s0⟩ h
  unfold evaluate at h
  rw [valid_angles_eq, List.head?_map] at h
  cases hh : ((angle_range c.depth c.cell_size).filter (fun a => meets_at c a)).head? with
  | none =>
    rw [hh] at h
    simp at h
  | some a =>
    rw [hh] at h
    simp only [Option.map_some', Option.some.injEq, Prod.mk.injEq] at h
    obtain ⟨h1, h2⟩ := h
    subst h1
    subst h2
    obtain ⟨hpa, hal, hmax⟩ :=
      head_filter_max _ (angle_range_pairwise c.depth c.cell_size) a hh
    refine ⟨hal, (meets_at_iff c a).mp hpa, rfl, ?_⟩
    intro b hb hge
    exact hmax b hb ((meets_at_iff c b).mpr hge)

/-- Claim C6: every angle of the sweep yields a row whose total coverage is
the rounded swath 2 * depth * tan(radians(angle) / 2), whose line spacing is
the rounded swath * (1 - overlap / 100), whose hit count is rounded to one
decimal, and whose requirement flag holds exactly when the unrounded hits
reach the threshold (rounding applies to the stored fields only). -/
theorem C6_per_angle (c : SurveyConfig) (angle : ℤ)
    (h : angle ∈ angle_range c.depth c.cell_size) :
    ∃ r ∈ results c,
      r.opening_angle = angle ∧
      r.total_coverage =
        pyRound (2 * c.depth * Real.tan ((angle : ℝ) * Real.pi / 180 / 2)) 2 ∧
      r.line_spacing =
        pyRound (2 * c.depth * Real.tan ((angle : ℝ) * Real.pi / 180 / 2) *
          (1 - c.overlap / 100)) 2 ∧
      r.hit_count_per_cell = pyRound (hits_at c angle) 1 ∧
      (r.meets_requirement = true ↔ hits_at c angle ≥ (c.hit_count_min : ℝ)) :=
  ⟨result_at c angle, List.mem_map_of_mem _ h, rfl, rfl, rfl, rfl, meets_at_iff c angle⟩

/-- The worked configuration of the source defaults: depth 20 m, cell size
1 m, overlap 20 %, minimum hit count 3, 1024 beams, 4 knots. -/
noncomputable def survey_example : SurveyConfig := ⟨20, 1, 20, 3, 1024, 4 * KNOT_TO_MS⟩

/-- 120° belongs to the sweep of the worked configuration. -/
lemma survey_example_mem :
    (120 : ℤ) ∈ angle_range survey_example.depth survey_example.cell_size := by
  show (120 : ℤ) ∈ angle_range 20 1
  rw [angle_range_20_1]
  decide

/-- Witness for C6 at the worked configuration and angle 120°. -/
theorem C6_per_angle_witness :
    ∃ r ∈ results survey_example,
      r.opening_angle = (120 : ℤ) ∧
      r.total_coverage =
        pyRound (2 * survey_example.depth *
          Real.tan (((120 : ℤ) : ℝ) * Real.pi / 180 / 2)) 2 ∧
      r.line_spacing =
        pyRound (2 * survey_example.depth *
          Real.tan (((120 : ℤ) : ℝ) * Real.pi / 180 / 2) *
          (1 - survey_example.overlap / 100)) 2 ∧
      r.hit_count_per_cell = pyRound (hits_at survey_example 120) 1 ∧
      (r.meets_requirement = true ↔
        hits_at survey_example 120 ≥ (survey_example.hit_count_min : ℝ)) :=
  C6_per_angle survey_example 120 survey_example_mem

/-- Claim C10: at depth 0 (an input the interface admits) every sweep angle
has swath 0 and hit count 0, so with any threshold of at least 1 the
evaluation ends in the explicit no-valid-angle outcome, without raising. -/
theorem C10_zero_depth (c : SurveyConfig) (hd : c.depth = 0) (hm : 1 ≤ c.hit_count_min) :
    (∀ a ∈ angle_range c.depth c.cell_size, swath_at c a = 0 ∧ hits_at c a = 0) ∧
      evaluate c = none := by
  have hsw : ∀ a : ℤ, swath_at c a = 0 := by
    intro a
    unfold swath_at
    rw [hd]
    ring
  have hh : ∀ a : ℤ, hits_at c a = 0 := by
    intro a
    simp only [hits_at, calculate_hits_per_cell, hsw a]
    norm_num
  have hfail : ∀ a ∈ angle_range c.depth c.cell_size,
      ¬ hits_at c a ≥ (c.hit_count_min : ℝ) := by
    intro a _ hge
    rw [hh a] at hge
    have h1 : (1 : ℝ) ≤ (c.hit_count_min : ℝ) := by exact_mod_cast hm
    linarith
  exact ⟨fun a _ => ⟨hsw a, hh a⟩, (evaluate_eq_none_iff c).mpr hfail⟩

/-- The worked configuration at depth 0. -/
noncomputable def survey_zero_depth : SurveyConfig := ⟨0, 1, 20, 3, 1024, 4 * KNOT_TO_MS⟩

/-- Witness for C10 at the depth-0 configuration. -/
theorem C10_zero_depth_witness :
    (∀ a ∈ angle_range survey_zero_depth.depth survey_zero_depth.cell_size,
        swath_at survey_zero_depth a = 0 ∧ hits_at survey_zero_depth a = 0) ∧
      evaluate survey_zero_depth = none :=
  C10_zero_depth survey_zero_depth rfl (by decide)

end MBES
